import Mathlib

/-!
Verification of the box image-build engine (package builder) against its
specification. The development shallowly embeds the relevant parts of
src/builder/builder.go and src/builder/verbs.go: script values, the step
wrapper with its cache fingerprint, the verbs from/run/with_user/inside/env,
and the Run/RunScript/RunCode drivers. External collaborators (the mruby
evaluator, the docker executor, the filesystem) are passed in as explicit
function parameters describing their observable outcomes.
-/

namespace Box

/-- A script value handed to a verb by the evaluator. The engine only needs
strings and hashes (maps) of values. -/
inductive MrbValue where
  | str (s : String)
  | hash (entries : List (MrbValue × MrbValue))

/-- Modelled from the spec: the canonical string rendering of a script value
(the source renders via extractStringArgs, which is not under src). A string value renders as its contents; the rendering of a hash is a
fixed placeholder — no claim below depends on how non-string values render. -/
def MrbValue.render : MrbValue → String
  | .str s => s
  | .hash _ => "(hash)"

/-- Modelled from the spec: extractStringArgs converts each script argument to
its canonical string form (the helper itself is not under src). -/
def extractStringArgs (args : List MrbValue) : List String :=
  args.map MrbValue.render

/-- UTF-8 encoding of one character, as the list of its byte values. This is
what casting a Go string to a byte slice produces. -/
def utf8Bytes (c : Char) : List Nat :=
  let n := c.toNat
  if n < 0x80 then [n]
  else if n < 0x800 then [0xC0 + n / 0x40, 0x80 + n % 0x40]
  else if n < 0x10000 then [0xE0 + n / 0x1000, 0x80 + (n / 0x40) % 0x40, 0x80 + n % 0x40]
  else [0xF0 + n / 0x40000, 0x80 + (n / 0x1000) % 0x40, 0x80 + (n / 0x40) % 0x40, 0x80 + n % 0x40]

/-- The byte contents of a string (Go: []byte(s)). -/
def strBytes (s : String) : List Nat :=
  (s.toList.map utf8Bytes).flatten

/-- The standard base64 alphabet used by Go encoding/base64 StdEncoding. -/
def base64Alphabet : List Char :=
  "ABCDEFGHIJKLMNOPQRSTUVWXYZabcdefghijklmnopqrstuvwxyz0123456789+/".toList

/-- The base64 digit for a 6-bit value. -/
def b64Char (n : Nat) : Char := base64Alphabet.getD n 'A'

/-- Base64 encoding of a byte list, three bytes to four digits, with the
padding behaviour of Go StdEncoding. -/
def base64Chunks : List Nat → List Char
  | [] => []
  | [a] => [b64Char (a / 4), b64Char ((a % 4) * 16), '=', '=']
  | [a, b] => [b64Char (a / 4), b64Char ((a % 4) * 16 + b / 16), b64Char ((b % 16) * 4), '=']
  | a :: b :: c :: rest =>
      b64Char (a / 4) :: b64Char ((a % 4) * 16 + b / 16) ::
      b64Char ((b % 16) * 4 + c / 64) :: b64Char (c % 64) :: base64Chunks rest

/-- Go: base64.StdEncoding.EncodeToString. -/
def base64EncodeToString (bytes : List Nat) : String :=
  String.mk (base64Chunks bytes)

/-- The cache fingerprint computed by the step wrapper, embedding
builder.go wrapVerbFunc: join name and the rendered arguments with a comma
and a space, then base64-encode the bytes of the joined string. -/
def wrapCacheKey (name : String) (args : List MrbValue) : String :=
  let strArgs := extractStringArgs args
  let cacheKey := String.intercalate ", " ([name] ++ strArgs)
  base64EncodeToString (strBytes cacheKey)

/-- The fingerprint as the specification words it: the base64 encoding of the
string obtained by joining the verb name and the canonical renderings of the
arguments with the separator comma-space. Stated independently of
wrapCacheKey so the two can be compared. -/
def specFingerprint (name : String) (args : List MrbValue) : String :=
  base64EncodeToString (strBytes (String.intercalate ", " (name :: args.map MrbValue.render)))

/-- Outcome of one pass through the step wrapper of builder.go wrapVerbFunc,
restricted to what happens after the fingerprint is computed: raise an
exception, return success without invoking the handler, or invoke the
handler with the fingerprint. -/
inductive WrapOutcome where
  | exc (msg : String)
  | skip
  | invoke (fingerprint : String)

/-- Embedding of builder.go wrapVerbFunc: probe the context, compute the
fingerprint, probe the cache, and decide whether the handler runs. The
executor cache probe is the function parameter checkCache. -/
def wrapVerbStep (name : String) (ctxDone : Bool) (ctxErr : Option String)
    (args : List MrbValue) (checkCache : String → Except String Bool) : WrapOutcome :=
  if ctxDone then
    match ctxErr with
    | some e => .exc e
    | none => .skip
  else
    let cacheKey := wrapCacheKey name args
    match checkCache cacheKey with
    | .error e => .exc e
    | .ok cached =>
      if !cached || name == "debug" then .invoke cacheKey else .skip

/-- The mutable container configuration of verbs.go (the fields the claims
touch). -/
structure ContainerConfig where
  Entrypoint : List String
  Cmd : List String
  WorkingDir : String
  User : String
  Env : List String
  Tty : Bool
  AttachStdout : Bool
  AttachStderr : Bool

/-- A container configuration with every field empty or false. -/
def emptyConfig : ContainerConfig :=
  { Entrypoint := [], Cmd := [], WorkingDir := "", User := "", Env := [],
    Tty := false, AttachStdout := false, AttachStderr := false }

/-- The builder state the verb handlers of verbs.go mutate: the latest image
identifier, the transient inside directory, and the container config. -/
structure VBuilder where
  imageID : String
  insideDir : String
  config : ContainerConfig

/-- Return value of a verb handler: Go handlers return a pair (value,
exception); ok carries the value of a nil-exception return (the value itself
may be nil), exc carries the exception message. -/
inductive VerbRet where
  | ok (v : Option MrbValue)
  | exc (msg : String)

/-- One read event from the pull progress stream: a progress line, or a read
error other than end-of-file. The end of the list is end-of-file. -/
inductive ReadEvent where
  | line (content : String)
  | fail (msg : String)

/-- The progress-streaming loop of verbs.go from: consume lines until
end-of-file; a read error aborts with its message. -/
def streamPull : List ReadEvent → Option String
  | [] => none
  | .line _ :: rest => streamPull rest
  | .fail e :: _ => some e

/-- Embedding of verbs.go from: set imageID to the rendered first argument,
enable tty and attach flags, then pull (the client call is the function
parameter pull) and stream progress; errors surface as exceptions. Note the
imageID assignment happens before the pull is attempted. -/
def fromVerb (pull : String → Except String (List ReadEvent))
    (arg0 : MrbValue) (b : VBuilder) : VerbRet × VBuilder :=
  let cfg1 : ContainerConfig :=
    { b.config with Tty := true, AttachStdout := true, AttachStderr := true }
  let b1 : VBuilder := { b with imageID := arg0.render, config := cfg1 }
  match pull b1.imageID with
  | .error e => (.exc e, b1)
  | .ok events =>
    match streamPull events with
    | some e => (.exc e, b1)
    | none => (.ok (some arg0), b1)

/-- Restore the three config fields saved by verbs.go run (the deferred
function). -/
def restoreECW (e c : List String) (w : String) (b : VBuilder) : VBuilder :=
  { b with config := { b.config with Entrypoint := e, Cmd := c, WorkingDir := w } }

/-- Embedding of verbs.go run: guard on an empty imageID (returning the
diagnostic as a value), save entrypoint, cmd and working directory, install
the shell override and the inside directory, call commit (abstracted as the
function parameter commit, which may mutate the builder and may fail), and
restore the three saved fields on every exit path. The Bool in the result
records whether commit was invoked. -/
def runVerb (commit : VBuilder → VBuilder × Option String)
    (args : List MrbValue) (b : VBuilder) : VerbRet × VBuilder × Bool :=
  if b.imageID = "" then
    (.ok (some (.str "`from` must precede any `run` statements")), b, false)
  else
    let stringArgs := args.map MrbValue.render
    let b1 : VBuilder :=
      { b with config := { b.config with
          Entrypoint := ["/bin/sh", "-c"],
          Cmd := stringArgs,
          WorkingDir := if b.insideDir ≠ "" then b.insideDir else b.config.WorkingDir } }
    let r := commit b1
    let b3 := restoreECW b.config.Entrypoint b.config.Cmd b.config.WorkingDir r.1
    ((match r.2 with
      | some e => VerbRet.exc e
      | none => VerbRet.ok none), b3, true)

/-- Embedding of verbs.go withUser: set config.User to the rendered first
argument, yield to the block (the function parameter blk, which receives the
builder and returns the mutated builder with the block outcome), clear
config.User, then convert a block failure into an exception. -/
def withUser (blk : VBuilder → VBuilder × Except String MrbValue)
    (arg0 : MrbValue) (b : VBuilder) : VerbRet × VBuilder :=
  let b1 : VBuilder := { b with config := { b.config with User := arg0.render } }
  let r := blk b1
  let b2 : VBuilder := { r.1 with config := { r.1.config with User := "" } }
  ((match r.2 with
    | Except.error e => VerbRet.exc ("Could not yield: " ++ e)
    | Except.ok v => VerbRet.ok (some v)), b2)

/-- Embedding of verbs.go inside: set insideDir to the rendered first
argument, yield to the block, clear insideDir, then convert a block failure
into an exception. -/
def inside (blk : VBuilder → VBuilder × Except String MrbValue)
    (arg0 : MrbValue) (b : VBuilder) : VerbRet × VBuilder :=
  let b1 : VBuilder := { b with insideDir := arg0.render }
  let r := blk b1
  let b2 : VBuilder := { r.1 with insideDir := "" }
  ((match r.2 with
    | Except.error e => VerbRet.exc ("Could not yield: " ++ e)
    | Except.ok v => VerbRet.ok (some v)), b2)

/-- The hash view of a script value: defined exactly when the value is a
hash. Go calls args[0].Hash() unconditionally; a non-hash (or a missing
argument) has no defined behaviour, which the embedding renders as none. -/
def MrbValue.asHash : MrbValue → Option (List (MrbValue × MrbValue))
  | .hash entries => some entries
  | _ => none

/-- Arity specification of a verb registration, after mruby ArgSpec: a fixed
required count, fully variadic, or a required count plus a trailing block. -/
inductive ArgSpec where
  | req (n : Nat)
  | any
  | blockReq (n : Nat)
deriving DecidableEq

/-- Whether an arity specification admits a call site passing k arguments
(the block, when demanded, arrives as one extra trailing argument). -/
def ArgSpec.allowsCount : ArgSpec → Nat → Bool
  | .req n, k => k == n
  | .any, _ => true
  | .blockReq n, k => k == n + 1

/-- Embedding of the verbs.go jumpTable registrations: each verb name with
its declared arity. -/
def jumpTable : List (String × ArgSpec) :=
  [("copy", .req 2), ("from", .req 1), ("run", .any), ("with_user", .blockReq 1),
   ("inside", .blockReq 1), ("env", .any), ("cmd", .any), ("entrypoint", .any)]

/-- Embedding of verbs.go env: index the first argument (none when the
argument list is empty — out-of-range, no defined behaviour), view it as a
hash (none when it is not one), append KEY=VALUE strings for every entry in
enumeration order, and commit with no run hook. The Bool records that commit
was invoked. -/
def env (commit : VBuilder → VBuilder × Option String)
    (args : List MrbValue) (b : VBuilder) : Option (VerbRet × VBuilder × Bool) :=
  match args.head? with
  | none => none
  | some arg0 =>
    match arg0.asHash with
    | none => none
    | some entries =>
      let b1 : VBuilder :=
        { b with config := { b.config with
            Env := b.config.Env ++ entries.map (fun kv => kv.1.render ++ "=" ++ kv.2.render) } }
      let r := commit b1
      some ((match r.2 with
             | some e => VerbRet.exc e
             | none => VerbRet.ok none), r.1, true)

/-- Result record of a build driver, embedding builder.go BuildResult. -/
structure BuildResult where
  FileName : String
  Value : Option MrbValue
  Err : Option String

/-- The builder state the drivers of builder.go touch: the script file name,
the registered after hook (none when unregistered), the current image
identifier held by the executor, and how many times the completion signal
channel has been closed. -/
structure RBuilder where
  fileName : String
  afterFunc : Option MrbValue
  imageID : String
  runnerCloses : Nat

/-- Which post-evaluation steps a driver performed: whether the layer
manager finalized the configuration (MakeImage) and whether the after hook
was yielded to. -/
structure RunTrace where
  finalized : Bool
  afterInvoked : Bool

/-- Embedding of builder.go RunCode: run the compiled value (its outcome is
the parameter evalResult, a pair of the returned value and the error), and on
a nil result with no error run MakeImage (parameter makeImage, returning the
new image identifier), yield the after hook unconditionally (parameter
yieldAfter applied to the possibly absent hook), and set the result value to
the image identifier. The stack retention hint keep passes through. -/
def RunCode (evalResult : Option MrbValue × Option String) (keep : Nat)
    (makeImage : Except String String)
    (yieldAfter : Option MrbValue → Except String MrbValue)
    (b : RBuilder) : BuildResult × Nat × RBuilder × RunTrace :=
  match evalResult.2 with
  | some e => (⟨b.fileName, evalResult.1, some e⟩, keep, b, ⟨false, false⟩)
  | none =>
    match evalResult.1 with
    | some v => (⟨b.fileName, some v, none⟩, keep, b, ⟨false, false⟩)
    | none =>
      match makeImage with
      | .error e => (⟨b.fileName, none, some e⟩, keep, b, ⟨true, false⟩)
      | .ok newID =>
        let b1 : RBuilder := { b with imageID := newID }
        match yieldAfter b1.afterFunc with
        | .error e => (⟨b1.fileName, none, some e⟩, keep, b1, ⟨true, true⟩)
        | .ok _ => (⟨b1.fileName, some (.str b1.imageID), none⟩, keep, b1, ⟨true, true⟩)

/-- Embedding of builder.go RunScript: load the script (outcome is the
parameter loadResult), then on success run MakeImage, yield the after hook
only when one is registered, and set the result value to the current image
identifier. -/
def RunScript (loadResult : Except String MrbValue)
    (makeImage : Except String String)
    (yieldAfter : Option MrbValue → Except String MrbValue)
    (b : RBuilder) : BuildResult × RBuilder × RunTrace :=
  match loadResult with
  | .error e => (⟨b.fileName, none, some e⟩, b, ⟨false, false⟩)
  | .ok _ =>
    match makeImage with
    | .error e => (⟨b.fileName, none, some e⟩, b, ⟨true, false⟩)
    | .ok newID =>
      let b1 : RBuilder := { b with imageID := newID }
      match b1.afterFunc with
      | some f =>
        match yieldAfter (some f) with
        | .error e => (⟨b1.fileName, none, some e⟩, b1, ⟨true, true⟩)
        | .ok _ => (⟨b1.fileName, some (.str b1.imageID), none⟩, b1, ⟨true, true⟩)
      | none => (⟨b1.fileName, some (.str b1.imageID), none⟩, b1, ⟨true, false⟩)

/-- Closing the completion signal channel once (Go: close on the Runner
channel), counted so that exactly-once closing is observable. -/
def closeRunner (b : RBuilder) : RBuilder :=
  { b with runnerCloses := b.runnerCloses + 1 }

/-- Embedding of builder.go Run: read the script file (outcome is the
parameter readFile), delegate to RunScript, and close the completion signal
on every exit path (the deferred close). -/
def Run (readFile : Except String String)
    (loadOf : String → Except String MrbValue)
    (makeImage : Except String String)
    (yieldAfter : Option MrbValue → Except String MrbValue)
    (b : RBuilder) : BuildResult × RBuilder × RunTrace :=
  match readFile with
  | .error e => (⟨b.fileName, none, some e⟩, closeRunner b, ⟨false, false⟩)
  | .ok script =>
    let r := RunScript (loadOf script) makeImage yieldAfter b
    (r.1, closeRunner r.2.1, r.2.2)

/-- Modelled from the spec: the coordinated-pull protocol of the Pull
Coordinator. builder.go declares the process-wide pulls map and its mutex,
but the from verb under src predates them and the coordination logic itself
is not under src. Per the spec, a caller acquires the lock and checks the
map: if the reference is absent it inserts a completion signal and issues
the pull; if present it waits on the signal and returns without pulling.
One acquisition event is one caller entering the critical section for a
reference during the concurrent window (before any pull completes and
removes its entry); the state is the set of in-flight references paired with
the multiset of pulls issued to the executor. -/
def pullAcquire : List String × List String → String → List String × List String
  | (inFlight, issued), ref =>
    if ref ∈ inFlight then (inFlight, issued)
    else (ref :: inFlight, ref :: issued)

/-- The multiset of pulls issued to the executor after a sequence of lock
acquisitions against an initially empty Pull Coordinator. -/
def pullsIssued (acquires : List String) : List String :=
  (acquires.foldl pullAcquire ([], [])).2

/-- Claim C1: for every committing verb invocation, the cache fingerprint
computed by the step wrapper equals the standard base64 encoding of the verb
name and the canonical string renderings of its arguments joined with a comma
and a space; since the fingerprint is a function of the name and the
arguments alone, the same verb and arguments always yield the same
fingerprint. -/
theorem claim_C1 (name : String) (args : List MrbValue) :
    wrapCacheKey name args = specFingerprint name args :=
  rfl

/-- Claim C2: under the step wrapper, a cache hit on the fingerprint means
the handler is not invoked and the wrapper returns success, unless the verb
is named debug, which runs even on a hit; a cache miss invokes the handler
with the fingerprint. -/
theorem claim_C2 (args : List MrbValue) (probe : String → Except String Bool) :
    (∀ name, probe (wrapCacheKey name args) = Except.ok true → name ≠ "debug" →
        wrapVerbStep name false none args probe = WrapOutcome.skip)
    ∧ (probe (wrapCacheKey "debug" args) = Except.ok true →
        wrapVerbStep "debug" false none args probe
          = WrapOutcome.invoke (wrapCacheKey "debug" args))
    ∧ (∀ name, probe (wrapCacheKey name args) = Except.ok false →
        wrapVerbStep name false none args probe
          = WrapOutcome.invoke (wrapCacheKey name args)) := by
  refine ⟨?_, ?_, ?_⟩
  · intro name hp hne
    simp [wrapVerbStep, hp, hne]
  · intro hp
    simp [wrapVerbStep, hp]
  · intro name hp
    simp [wrapVerbStep, hp]

/-- Witness for claim C2 at concrete inputs: a hit skips a plain verb, a hit
still invokes the debug verb, and a miss invokes the handler with the
fingerprint. -/
theorem claim_C2_witness :
    (wrapVerbStep "run" false none [] (fun _ => Except.ok true) = WrapOutcome.skip)
    ∧ (wrapVerbStep "debug" false none [] (fun _ => Except.ok true)
        = WrapOutcome.invoke (wrapCacheKey "debug" []))
    ∧ (wrapVerbStep "run" false none [] (fun _ => Except.ok false)
        = WrapOutcome.invoke (wrapCacheKey "run" [])) :=
  ⟨(claim_C2 [] (fun _ => Except.ok true)).1 "run" rfl (by decide),
   (claim_C2 [] (fun _ => Except.ok true)).2.1 rfl,
   (claim_C2 [] (fun _ => Except.ok false)).2.2 "run" rfl⟩

/-- Counterexample to claim C3: with a failing pull, the from verb returns
the exception, yet the imageID of the builder does not equal its pre-call
value "old" — the assignment to imageID happens before the pull is
attempted, so the identifier is advanced even on failure. -/
theorem claim_C3_counterexample :
    ((fromVerb (fun _ => Except.error "no such image") (MrbValue.str "alpine")
        ⟨"old", "", emptyConfig⟩).1 = VerbRet.exc "no such image")
    ∧ ¬ ((fromVerb (fun _ => Except.error "no such image") (MrbValue.str "alpine")
        ⟨"old", "", emptyConfig⟩).2.imageID = "old") :=
  ⟨rfl, by decide⟩

/-- Claim C3 as amended: the from verb sets imageID to the rendered first
argument before attempting the pull, so on every exit path the imageID of
the builder equals the requested reference; a pull failure or a stream read
failure surfaces as an exception (with imageID already advanced), and on
success the verb returns the reference value. -/
theorem claim_C3 (pull : String → Except String (List ReadEvent)) (arg0 : MrbValue)
    (b : VBuilder) :
    ((fromVerb pull arg0 b).2.imageID = arg0.render)
    ∧ (∀ e, pull arg0.render = Except.error e → (fromVerb pull arg0 b).1 = VerbRet.exc e)
    ∧ (∀ events, pull arg0.render = Except.ok events → streamPull events = none →
        (fromVerb pull arg0 b).1 = VerbRet.ok (some arg0))
    ∧ (∀ events e, pull arg0.render = Except.ok events → streamPull events = some e →
        (fromVerb pull arg0 b).1 = VerbRet.exc e) := by
  refine ⟨?_, ?_, ?_, ?_⟩
  · unfold fromVerb
    rcases hp : pull arg0.render with e | events
    · simp [hp]
    · rcases hs : streamPull events with _ | e <;> simp [hp, hs]
  · intro e hp
    simp [fromVerb, hp]
  · intro events hp hs
    simp [fromVerb, hp, hs]
  · intro events e hp hs
    simp [fromVerb, hp, hs]

/-- Witness for claim C3 at a concrete input: a failing pull surfaces as an
exception and imageID equals the requested reference. -/
theorem claim_C3_witness :
    ((fromVerb (fun _ => Except.error "boom") (MrbValue.str "alpine")
        ⟨"old", "", emptyConfig⟩).2.imageID = "alpine")
    ∧ ((fromVerb (fun _ => Except.error "boom") (MrbValue.str "alpine")
        ⟨"old", "", emptyConfig⟩).1 = VerbRet.exc "boom") := by
  have h := claim_C3 (fun _ => Except.error "boom") (MrbValue.str "alpine")
      ⟨"old", "", emptyConfig⟩
  exact ⟨h.1, h.2.1 "boom" rfl⟩

/-- Claim C4: after any invocation of the run verb — for every commit
behaviour, so on success and on failure alike — the Entrypoint, Cmd and
WorkingDir fields of the config equal their values from immediately before
the call. -/
theorem claim_C4 (commit : VBuilder → VBuilder × Option String) (args : List MrbValue)
    (b : VBuilder) :
    ((runVerb commit args b).2.1.config.Entrypoint = b.config.Entrypoint)
    ∧ ((runVerb commit args b).2.1.config.Cmd = b.config.Cmd)
    ∧ ((runVerb commit args b).2.1.config.WorkingDir = b.config.WorkingDir) := by
  refine ⟨?_, ?_, ?_⟩ <;> (unfold runVerb; split) <;> rfl

/-- Claim C5: when imageID is empty, the run verb returns the diagnostic
string as its value with a nil error signal, leaves the builder unchanged,
and performs no executor commit. -/
theorem claim_C5 (commit : VBuilder → VBuilder × Option String) (args : List MrbValue)
    (b : VBuilder) (h : b.imageID = "") :
    runVerb commit args b
      = (VerbRet.ok (some (MrbValue.str "`from` must precede any `run` statements")),
         b, false) := by
  simp [runVerb, h]

/-- Witness for claim C5 at a concrete input with empty imageID. -/
theorem claim_C5_witness :
    runVerb (fun s => (s, none)) [MrbValue.str "true"] ⟨"", "", emptyConfig⟩
      = (VerbRet.ok (some (MrbValue.str "`from` must precede any `run` statements")),
         ⟨"", "", emptyConfig⟩, false) :=
  claim_C5 (fun s => (s, none)) [MrbValue.str "true"] ⟨"", "", emptyConfig⟩ rfl

/-- Counterexample to claim C6: a RunCode invocation whose evaluation
succeeds (the error of the result is none) but returns a non-nil value does
not follow the claimed post-evaluation protocol — the layer manager is not
asked to finalize, and the result value is the evaluator value, not the
image identifier (which is still img0). -/
theorem claim_C6_counterexample :
    ((RunCode (some (MrbValue.str "v"), none) 0 (Except.ok "img1")
        (fun _ => Except.ok (MrbValue.str "z")) ⟨"box.rb", none, "img0", 0⟩).1.Err = none)
    ∧ ((RunCode (some (MrbValue.str "v"), none) 0 (Except.ok "img1")
        (fun _ => Except.ok (MrbValue.str "z")) ⟨"box.rb", none, "img0", 0⟩).2.2.2.finalized
        = false)
    ∧ ((RunCode (some (MrbValue.str "v"), none) 0 (Except.ok "img1")
        (fun _ => Except.ok (MrbValue.str "z")) ⟨"box.rb", none, "img0", 0⟩).1.Value
        = some (MrbValue.str "v"))
    ∧ ((RunCode (some (MrbValue.str "v"), none) 0 (Except.ok "img1")
        (fun _ => Except.ok (MrbValue.str "z")) ⟨"box.rb", none, "img0", 0⟩).2.2.1.imageID
        = "img0") :=
  ⟨rfl, rfl, rfl, rfl⟩

/-- Claim C6 as amended: Run and RunScript follow the post-evaluation
protocol — finalize the configuration into an image, invoke the after hook
exactly when one is registered, set the result value to the current image
identifier, and return any error of these steps as the result error, which
aborts the protocol. RunCode follows the protocol only when evaluation
yields no value: a successful evaluation with a value is returned as is,
skipping finalize and hook; and on its protocol path RunCode yields to the
after hook unconditionally, even when none is registered. -/
theorem claim_C6 (lv v : MrbValue) (e newID s : String) (k : Nat)
    (ya : Option MrbValue → Except String MrbValue)
    (lo : String → Except String MrbValue)
    (mi : Except String String) (b : RBuilder) :
    (RunScript (Except.error e) mi ya b = (⟨b.fileName, none, some e⟩, b, ⟨false, false⟩))
    ∧ (RunScript (Except.ok lv) (Except.error e) ya b
        = (⟨b.fileName, none, some e⟩, b, ⟨true, false⟩))
    ∧ ((RunScript (Except.ok lv) (Except.ok newID) ya b).2.2.afterInvoked = b.afterFunc.isSome)
    ∧ (∀ f, b.afterFunc = some f → ya (some f) = Except.error e →
        RunScript (Except.ok lv) (Except.ok newID) ya b
          = (⟨b.fileName, none, some e⟩, { b with imageID := newID }, ⟨true, true⟩))
    ∧ (∀ f r, b.afterFunc = some f → ya (some f) = Except.ok r →
        RunScript (Except.ok lv) (Except.ok newID) ya b
          = (⟨b.fileName, some (MrbValue.str newID), none⟩, { b with imageID := newID },
             ⟨true, true⟩))
    ∧ (b.afterFunc = none →
        RunScript (Except.ok lv) (Except.ok newID) ya b
          = (⟨b.fileName, some (MrbValue.str newID), none⟩, { b with imageID := newID },
             ⟨true, false⟩))
    ∧ ((Run (Except.ok s) lo mi ya b).1 = (RunScript (lo s) mi ya b).1)
    ∧ (RunCode (some v, none) k mi ya b = (⟨b.fileName, some v, none⟩, k, b, ⟨false, false⟩))
    ∧ ((RunCode (none, none) k (Except.ok newID) ya b).2.2.2.afterInvoked = true)
    ∧ (∀ r, ya b.afterFunc = Except.ok r →
        RunCode (none, none) k (Except.ok newID) ya b
          = (⟨b.fileName, some (MrbValue.str newID), none⟩, k, { b with imageID := newID },
             ⟨true, true⟩)) := by
  refine ⟨rfl, rfl, ?_, ?_, ?_, ?_, rfl, rfl, ?_, ?_⟩
  · simp only [RunScript]
    rcases hb : b.afterFunc with _ | f
    · simp [hb]
    · rcases hy : ya (some f) with e2 | r <;> simp [hb, hy]
  · intro f hb hy
    simp [RunScript, hb, hy]
  · intro f r hb hy
    simp [RunScript, hb, hy]
  · intro hb
    simp [RunScript, hb]
  · simp only [RunCode]
    rcases hy : ya b.afterFunc with e2 | r <;> simp [hy]
  · intro r hy
    simp [RunCode, hy]

/-- Witness for claim C6 at concrete inputs: RunScript with no registered
hook, RunScript with a registered hook, and the nil-value RunCode path where
the hook fires even though none is registered. -/
theorem claim_C6_witness :
    (RunScript (Except.ok (MrbValue.str "a")) (Except.ok "img1")
        (fun _ => Except.ok (MrbValue.str "z")) ⟨"box.rb", none, "img0", 0⟩
      = (⟨"box.rb", some (MrbValue.str "img1"), none⟩, ⟨"box.rb", none, "img1", 0⟩,
         ⟨true, false⟩))
    ∧ (RunScript (Except.ok (MrbValue.str "a")) (Except.ok "img1")
        (fun _ => Except.ok (MrbValue.str "z"))
        ⟨"box.rb", some (MrbValue.str "hook"), "img0", 0⟩
      = (⟨"box.rb", some (MrbValue.str "img1"), none⟩,
         ⟨"box.rb", some (MrbValue.str "hook"), "img1", 0⟩, ⟨true, true⟩))
    ∧ (RunCode (none, none) 0 (Except.ok "img1")
        (fun _ => Except.ok (MrbValue.str "z")) ⟨"box.rb", none, "img0", 0⟩
      = (⟨"box.rb", some (MrbValue.str "img1"), none⟩, 0, ⟨"box.rb", none, "img1", 0⟩,
         ⟨true, true⟩)) := by
  have h1 := claim_C6 (MrbValue.str "a") (MrbValue.str "v") "boom" "img1" "s" 0
      (fun _ => Except.ok (MrbValue.str "z")) (fun _ => Except.ok (MrbValue.str "a"))
      (Except.ok "img1") ⟨"box.rb", none, "img0", 0⟩
  have h2 := claim_C6 (MrbValue.str "a") (MrbValue.str "v") "boom" "img1" "s" 0
      (fun _ => Except.ok (MrbValue.str "z")) (fun _ => Except.ok (MrbValue.str "a"))
      (Except.ok "img1") ⟨"box.rb", some (MrbValue.str "hook"), "img0", 0⟩
  exact ⟨h1.2.2.2.2.2.1 rfl,
         h2.2.2.2.2.1 (MrbValue.str "hook") (MrbValue.str "z") rfl rfl,
         h1.2.2.2.2.2.2.2.2.2 (MrbValue.str "z") rfl⟩

/-- Claim C7: after withUser returns the User field of the config is empty,
and after inside returns the insideDir field is empty, for every block —
succeeding or failing; and a block that observes the state during its
evaluation sees the User (respectively insideDir) set to the rendered
argument. -/
theorem claim_C7 (blk : VBuilder → VBuilder × Except String MrbValue) (arg0 : MrbValue)
    (b : VBuilder) :
    ((withUser blk arg0 b).2.config.User = "")
    ∧ ((inside blk arg0 b).2.insideDir = "")
    ∧ ((withUser (fun s => (s, Except.ok (MrbValue.str s.config.User))) arg0 b).1
        = VerbRet.ok (some (MrbValue.str arg0.render)))
    ∧ ((inside (fun s => (s, Except.ok (MrbValue.str s.insideDir))) arg0 b).1
        = VerbRet.ok (some (MrbValue.str arg0.render))) :=
  ⟨rfl, rfl, rfl, rfl⟩

/-- Helper: RunScript never touches the completion signal counter. -/
lemma runScript_closes (lr : Except String MrbValue) (mi : Except String String)
    (ya : Option MrbValue → Except String MrbValue) (b : RBuilder) :
    (RunScript lr mi ya b).2.1.runnerCloses = b.runnerCloses := by
  rcases lr with e | v
  · rfl
  · rcases mi with e | id
    · rfl
    · simp only [RunScript]
      rcases hb : b.afterFunc with _ | f
      · simp [hb]
      · rcases hy : ya (some f) with e | r <;> simp [hb, hy]

/-- Helper: RunCode never touches the completion signal counter. -/
lemma runCode_closes (er : Option MrbValue × Option String) (k : Nat)
    (mi : Except String String) (ya : Option MrbValue → Except String MrbValue)
    (b : RBuilder) :
    (RunCode er k mi ya b).2.2.1.runnerCloses = b.runnerCloses := by
  rcases er with ⟨res, errv⟩
  rcases errv with _ | e
  · rcases res with _ | v
    · rcases mi with e | id
      · rfl
      · simp only [RunCode]
        rcases hy : ya b.afterFunc with e | r <;> simp [hy]
    · rfl
  · rfl

/-- Claim C9: every Run call closes the completion signal exactly once —
also when reading the script file fails — while RunScript and RunCode never
close it. -/
theorem claim_C9 (rf : Except String String) (lo : String → Except String MrbValue)
    (mi : Except String String) (ya : Option MrbValue → Except String MrbValue)
    (lr : Except String MrbValue) (er : Option MrbValue × Option String)
    (k : Nat) (b : RBuilder) :
    ((Run rf lo mi ya b).2.1.runnerCloses = b.runnerCloses + 1)
    ∧ ((RunScript lr mi ya b).2.1.runnerCloses = b.runnerCloses)
    ∧ ((RunCode er k mi ya b).2.2.1.runnerCloses = b.runnerCloses) := by
  refine ⟨?_, runScript_closes lr mi ya b, runCode_closes er k mi ya b⟩
  rcases rf with e | s
  · rfl
  · simp only [Run, closeRunner]
    rw [runScript_closes (lo s) mi ya b]

/-- Helper: counting the pulls a fold over acquisition events issues, for an
arbitrary intermediate coordinator state. -/
lemma pullAcquire_count (r : String) :
    ∀ (acquires inFlight issued : List String),
      ((acquires.foldl pullAcquire (inFlight, issued)).2.count r)
        = issued.count r + (if r ∈ inFlight then 0 else if r ∈ acquires then 1 else 0)
  | [], inFlight, issued => by simp [List.foldl]
  | a :: rest, inFlight, issued => by
    simp only [List.foldl, pullAcquire]
    by_cases ha : a ∈ inFlight
    · rw [if_pos ha, pullAcquire_count r rest inFlight issued]
      by_cases hr : r ∈ inFlight
      · simp [hr]
      · have hra : r ≠ a := fun h => hr (h ▸ ha)
        simp [hr, List.mem_cons, hra]
    · rw [if_neg ha, pullAcquire_count r rest (a :: inFlight) (a :: issued)]
      by_cases hra : r = a
      · subst hra
        simp [ha, List.mem_cons, List.count_cons]
      · by_cases hr : r ∈ inFlight
        · simp [hr, List.mem_cons, hra, List.count_cons]
        · simp [hr, List.mem_cons, hra, List.count_cons]

/-- Claim C8: with the Pull Coordinator initially empty, any number of
concurrent from callers acquiring the coordinator lock — in any order —
issue exactly one pull to the executor per requested reference; callers for
a reference already in flight wait and do not re-pull, and references never
requested are never pulled, so distinct references proceed independently. -/
theorem claim_C8 (acquires : List String) (r : String) :
    (r ∈ acquires → (pullsIssued acquires).count r = 1)
    ∧ (r ∉ acquires → (pullsIssued acquires).count r = 0) := by
  constructor <;> intro h <;>
    simp [pullsIssued, pullAcquire_count r acquires [] [], h]

/-- Witness for claim C8 at a concrete schedule: three concurrent callers
for alpine and one for ubuntu issue one pull each, and no pull for an
unrequested reference. -/
theorem claim_C8_witness :
    ((pullsIssued ["alpine", "alpine", "alpine", "ubuntu"]).count "alpine" = 1)
    ∧ ((pullsIssued ["alpine", "alpine", "alpine", "ubuntu"]).count "ubuntu" = 1)
    ∧ ((pullsIssued ["alpine", "alpine", "alpine", "ubuntu"]).count "debian" = 0) :=
  ⟨(claim_C8 ["alpine", "alpine", "alpine", "ubuntu"] "alpine").1 (by decide),
   (claim_C8 ["alpine", "alpine", "alpine", "ubuntu"] "ubuntu").1 (by decide),
   (claim_C8 ["alpine", "alpine", "alpine", "ubuntu"] "debian").2 (by decide)⟩

/-- Claim C10: the env verb is registered fully variadic (zero arguments are
admitted by its arity), yet its handler indexes the first argument and views
it as a hash unconditionally, so a call with no arguments — or with a
non-hash first argument — has no defined behaviour, while a call whose
first argument is a hash is defined. -/
theorem claim_C10 :
    (jumpTable.lookup "env" = some ArgSpec.any)
    ∧ (ArgSpec.any.allowsCount 0 = true)
    ∧ (∀ commit b, env commit [] b = none)
    ∧ (∀ commit b arg0 rest, arg0.asHash.isSome = false → env commit (arg0 :: rest) b = none)
    ∧ (∀ commit b entries rest, (env commit (MrbValue.hash entries :: rest) b).isSome = true) := by
  refine ⟨by decide, rfl, fun _ _ => rfl, ?_, fun _ _ _ _ => rfl⟩
  intro commit b arg0 rest h
  rcases arg0 with s | entries
  · rfl
  · simp [MrbValue.asHash] at h

/-- Witness for claim C10 at a concrete input: a non-hash first argument
leaves env undefined. -/
theorem claim_C10_witness :
    env (fun s => (s, none)) [MrbValue.str "x"] ⟨"img", "", emptyConfig⟩ = none :=
  claim_C10.2.2.2.1 (fun s => (s, none)) ⟨"img", "", emptyConfig⟩ (MrbValue.str "x") [] rfl

end Box
